import Mathlib

/-!
Verification development for the client side of a HomeKit-style
Pair-Setup / Pair-Verify implementation (src/pair_homekit.c).

Bytes are modelled as `List Nat` (each element a value `< 256`).  Big
integers ("bnum") are modelled as `Nat` (serialized big-endian without
sign byte, minimal length, exactly as `bnum_bn2bin`/`bnum_num_bytes`).
SHA-512 and HMAC-SHA512 are implemented concretely (the code fixes the
512-bit hash variant throughout).  The remaining cryptographic
primitives (ChaCha20-Poly1305 AEAD, Ed25519, X25519) and the TLV codec
are external collaborators of the repository and are passed in as
capability parameters, following the source's use of them as opaque
library calls.
-/

set_option maxRecDepth 1000000

set_option maxHeartbeats 4000000

/- ------------------------- Byte-level utilities ------------------------- -/

/-- Big-endian bytes to natural number (`bnum_bin2bn`). -/
def bytesToNat (l : List Nat) : Nat :=
  l.foldl (fun acc b => acc * 256 + b) 0

/-- Helper for `natToBytes`: peel bytes from the least-significant end onto
an accumulator; structurally recursive on a fuel argument. -/
def natToBytesAux : Nat → Nat → List Nat → List Nat
  | 0, _, acc => acc
  | fuel + 1, n, acc => if n = 0 then acc else natToBytesAux fuel (n / 256) (n % 256 :: acc)

/-- Minimal big-endian serialization of a natural number (`bnum_bn2bin` with
`bnum_num_bytes` bytes); zero serializes to the empty string of bytes. -/
def natToBytes (n : Nat) : List Nat :=
  natToBytesAux n n []

/-- Big-endian serialization zero-padded on the left to exactly `len` bytes. -/
def natToBytesPadded (len n : Nat) : List Nat :=
  let b := natToBytes n
  List.replicate (len - b.length) 0 ++ b

/-- The bytes of an ASCII string (one byte per character). -/
def strBytes (s : String) : List Nat :=
  s.toList.map Char.toNat

/-- A `uint16_t` copied to memory in host (little-endian) byte order. -/
def le16 (n : Nat) : List Nat :=
  [n % 256, (n / 256) % 256]

/-- Reading a `uint16_t` from memory in host (little-endian) byte order;
bytes beyond the end of the buffer are modelled as zero (the bounds check
in the decrypt loop fails for every possible value of such a read). -/
def readLE16 (l : List Nat) : Nat :=
  (l.getD 0 0) + 256 * (l.getD 1 0)

/-- A `uint64_t` counter copied into the nonce in host (little-endian)
byte order. -/
def le64 (n : Nat) : List Nat :=
  [n % 256, (n / 256) % 256, (n / 256 ^ 2) % 256, (n / 256 ^ 3) % 256,
   (n / 256 ^ 4) % 256, (n / 256 ^ 5) % 256, (n / 256 ^ 6) % 256, (n / 256 ^ 7) % 256]

/- ------------------------------- SHA-512 -------------------------------- -/

/-- Truncation to a 64-bit word. -/
def w64 (x : Nat) : Nat := x % 18446744073709551616

/-- 64-bit right rotation. -/
def rotr64 (n x : Nat) : Nat := w64 ((x >>> n) ||| (x <<< (64 - n)))

/-- 64-bit bitwise complement. -/
def not64 (x : Nat) : Nat := x ^^^ 18446744073709551615

def sha512Ch (x y z : Nat) : Nat := (x &&& y) ^^^ (not64 x &&& z)

def sha512Maj (x y z : Nat) : Nat := (x &&& y) ^^^ (x &&& z) ^^^ (y &&& z)

def sha512BSig0 (x : Nat) : Nat := rotr64 28 x ^^^ rotr64 34 x ^^^ rotr64 39 x

def sha512BSig1 (x : Nat) : Nat := rotr64 14 x ^^^ rotr64 18 x ^^^ rotr64 41 x

def sha512SSig0 (x : Nat) : Nat := rotr64 1 x ^^^ rotr64 8 x ^^^ (x >>> 7)

def sha512SSig1 (x : Nat) : Nat := rotr64 19 x ^^^ rotr64 61 x ^^^ (x >>> 6)

/-- The 80 SHA-512 round constants (FIPS 180-4). -/
def sha512K : List Nat :=
  [4794697086780616226, 8158064640168781261, 13096744586834688815, 16840607885511220156,
   4131703408338449720, 6480981068601479193, 10538285296894168987, 12329834152419229976,
   15566598209576043074, 1334009975649890238, 2608012711638119052, 6128411473006802146,
   8268148722764581231, 9286055187155687089, 11230858885718282805, 13951009754708518548,
   16472876342353939154, 17275323862435702243, 1135362057144423861, 2597628984639134821,
   3308224258029322869, 5365058923640841347, 6679025012923562964, 8573033837759648693,
   10970295158949994411, 12119686244451234320, 12683024718118986047, 13788192230050041572,
   14330467153632333762, 15395433587784984357, 489312712824947311, 1452737877330783856,
   2861767655752347644, 3322285676063803686, 5560940570517711597, 5996557281743188959,
   7280758554555802590, 8532644243296465576, 9350256976987008742, 10552545826968843579,
   11727347734174303076, 12113106623233404929, 14000437183269869457, 14369950271660146224,
   15101387698204529176, 15463397548674623760, 17586052441742319658, 1182934255886127544,
   1847814050463011016, 2177327727835720531, 2830643537854262169, 3796741975233480872,
   4115178125766777443, 5681478168544905931, 6601373596472566643, 7507060721942968483,
   8399075790359081724, 8693463985226723168, 9568029438360202098, 10144078919501101548,
   10430055236837252648, 11840083180663258601, 13761210420658862357, 14299343276471374635,
   14566680578165727644, 15097957966210449927, 16922976911328602910, 17689382322260857208,
   500013540394364858, 748580250866718886, 1242879168328830382, 1977374033974150939,
   2944078676154940804, 3659926193048069267, 4368137639120453308, 4836135668995329356,
   5532061633213252278, 6448918945643986474, 6902733635092675308, 7801388544844847127]

/-- The SHA-512 initial hash value (FIPS 180-4). -/
def sha512H0 : List Nat :=
  [7640891576956012808, 13503953896175478587, 4354685564936845355, 11912009170470909681,
   5840696475078001361, 11170449401992604703, 2270897969802886507, 6620516959819538809]

/-- Group 8 big-endian bytes into one 64-bit word each. -/
def bytesToWords : List Nat → List Nat
  | b0 :: b1 :: b2 :: b3 :: b4 :: b5 :: b6 :: b7 :: rest =>
      (((((((b0 * 256 + b1) * 256 + b2) * 256 + b3) * 256 + b4) * 256 + b5) * 256
        + b6) * 256 + b7) :: bytesToWords rest
  | _ => []

/-- One 64-bit word to 8 big-endian bytes. -/
def wordToBytes (x : Nat) : List Nat :=
  natToBytesPadded 8 (w64 x)

/-- SHA-512 message padding: append 0x80, zeros, and the 128-bit big-endian
bit length, reaching a multiple of 128 bytes. -/
def sha512Pad (msg : List Nat) : List Nat :=
  let L := msg.length
  let k := (128 - (L + 17) % 128) % 128
  msg ++ [0x80] ++ List.replicate k 0 ++ natToBytesPadded 16 (8 * L)

/-- Split a byte list into 128-byte blocks (fuel-driven; fuel `≥` length
suffices). -/
def chunks128 : Nat → List Nat → List (List Nat)
  | 0, _ => []
  | _, [] => []
  | fuel + 1, l => l.take 128 :: chunks128 fuel (l.drop 128)

/-- Extend the 16 message words to 80 schedule words.  The accumulator holds
the words produced so far, most recent first. -/
def sha512SchedAux : Nat → List Nat → List Nat
  | 0, acc => acc.reverse
  | fuel + 1, acc =>
      let nw := w64 (sha512SSig1 (acc.getD 1 0) + acc.getD 6 0 +
                     sha512SSig0 (acc.getD 14 0) + acc.getD 15 0)
      sha512SchedAux fuel (nw :: acc)

def sha512Schedule (ws : List Nat) : List Nat :=
  sha512SchedAux 64 ws.reverse

/-- One SHA-512 round: transform the 8-word working state with one round
constant and one schedule word. -/
def sha512Round (st : List Nat) (kw : Nat × Nat) : List Nat :=
  match st with
  | [a, b, c, d, e, f, g, h] =>
      let t1 := w64 (h + sha512BSig1 e + sha512Ch e f g + kw.1 + kw.2)
      let t2 := w64 (sha512BSig0 a + sha512Maj a b c)
      [w64 (t1 + t2), a, b, c, w64 (d + t1), e, f, g]
  | st => st

/-- Compress one 128-byte block into the running 8-word hash state. -/
def sha512Compress (h : List Nat) (block : List Nat) : List Nat :=
  let ws := sha512Schedule (bytesToWords block)
  let st := List.foldl sha512Round h (List.zip sha512K ws)
  List.zipWith (fun x y => w64 (x + y)) h st

/-- SHA-512 of a byte list, producing the 64-byte digest. -/
def sha512 (msg : List Nat) : List Nat :=
  let padded := sha512Pad msg
  let final := List.foldl sha512Compress sha512H0 (chunks128 padded.length padded)
  final.foldr (fun x acc => wordToBytes x ++ acc) []

/-- HMAC-SHA512 (block size 128 bytes). -/
def hmacSha512 (key msg : List Nat) : List Nat :=
  let k0 := if key.length > 128 then sha512 key else key
  let kp := k0 ++ List.replicate (128 - k0.length) 0
  sha512 (kp.map (· ^^^ 0x5c) ++ sha512 (kp.map (· ^^^ 0x36) ++ msg))

/- --------------------------------- SRP ---------------------------------- -/

/-- The RFC 5054 3072-bit group modulus (the only group the pairing flows
use; `global_Ng_constants[SRP_NG_3072]`). -/
def srpN3072 : Nat :=
  0xFFFFFFFFFFFFFFFFC90FDAA22168C234C4C6628B80DC1CD129024E088A67CC74020BBEA63B139B22514A08798E3404DDEF9519B3CD3A431B302B0A6DF25F14374FE1356D6D51C245E485B576625E7EC6F44C42E9A637ED6B0BFF5CB6F406B7EDEE386BFB5A899FA5AE9F24117C4B1FE649286651ECE45B3DC2007CB8A163BF0598DA48361C55D39A69163FA8FD24CF5F83655D23DCA3AD961C62F356208552BB9ED529077096966D670C354E4ABC9804F1746C08CA18217C32905E462E36CE3BE39E772C180E86039B2783A2EC07A28FB5C55DF06F4C52C9DE2BCBF6955817183995497CEA956AE515D2261898FA051015728E5A8AAAC42DAD33170D04507A33A85521ABDF1CBA64ECFB850458DBEF0A8AEA71575D060C7DB3970F85A6E1E4C7ABF5AE8CDB0933D71E8C94E04A25619DCEE3D2261AD2EE6BF12FFA06D98A0864D87602733EC86A64521F2B18177B200CBBE117577A615D6C770988C0BAD946E208E24FA074E5AB3143DB5BFCE0FD108E4B82D120A93AD2CAFFFFFFFFFFFFFFFF

/-- The 3072-bit group generator. -/
def srpG3072 : Nat := 5

/-- Modular exponentiation on naturals (`bnum_modexp` with a non-negative
base). -/
def powMod (b e m : Nat) : Nat := b ^ e % m

/-- Modular exponentiation on integers (`bnum_modexp`; the base
`B - k·g^x` in `srp_user_process_challenge` can be negative, and the
library computes the non-negative residue). -/
def intPowMod (b : Int) (e : Nat) (m : Int) : Int := b ^ e % m

/-- The client-side SRP session state (`struct SRPUser`, with the fixed
SHA-512 hash algorithm).  The random exponent `a` is supplied by the caller
(randomness is external).  `bnum` fields are naturals; byte fields are byte
lists.  Fields written by `srp_user_process_challenge` are part of the
functional result of that operation instead. -/
structure SRPUser where
  N : Nat
  g : Nat
  a : Nat
  A : Nat
  username : String
  password : List Nat
  session_key : List Nat
  M : List Nat
  H_AMK : List Nat
  authenticated : Bool
  deriving Repr, DecidableEq

/-- `srp_user_new` with the fixed `HASH_SHA512`/`SRP_NG_3072` parameters the
code uses, and the random exponent `a` (drawn by `bnum_random` in
`srp_user_start_authentication`) made explicit. -/
def srp_user_new (username : String) (password : List Nat) (a : Nat) : SRPUser :=
  { N := srpN3072, g := srpG3072, a := a, A := 0,
    username := username, password := password,
    session_key := [], M := [], H_AMK := [], authenticated := false }

/-- `srp_user_start_authentication`: computes `A = g^a mod N` and returns
the updated session together with the username and the bytes of `A`. -/
def srp_user_start_authentication (usr : SRPUser) : SRPUser × String × List Nat :=
  let A := powMod usr.g usr.a usr.N
  ({ usr with A := A }, usr.username, natToBytes A)

/-- `H_nn_pad`: hash the concatenation of `n1` and `n2`, both zero-padded on
the left to the byte length of `n1`; fails (returns a null bnum) unless
`1 ≤ len n2 ≤ len n1`.  The result is read back as a bnum. -/
def H_nn_pad (n1 n2 : Nat) : Option Nat :=
  let len1 := (natToBytes n1).length
  let len2 := (natToBytes n2).length
  if 1 ≤ len2 ∧ len2 ≤ len1 then
    some (bytesToNat (sha512 (natToBytes n1 ++ natToBytesPadded len1 n2)))
  else
    none

/-- `H_ns`: hash the bytes of `n` followed by `bytes`, read back as a bnum. -/
def H_ns (n : Nat) (bytes : List Nat) : Nat :=
  bytesToNat (sha512 (natToBytes n ++ bytes))

/-- `calculate_x`: `x = H(salt | H(username ":" password))`. -/
def calculate_x (salt : Nat) (username : String) (password : List Nat) : Nat :=
  H_ns salt (sha512 (strBytes username ++ strBytes (":") ++ password))

/-- `calculate_M`:
`M1 = H(H(N) xor H(g) | H(username) | s | A | B | K)`, with all bnums
serialized minimally big-endian. -/
def calculate_M (N g : Nat) (username : String) (s A B : Nat) (K : List Nat) :
    List Nat :=
  let HN := sha512 (natToBytes N)
  let Hg := sha512 (natToBytes g)
  let HI := sha512 (strBytes username)
  let Hxor := List.zipWith (· ^^^ ·) HN Hg
  sha512 (Hxor ++ HI ++ natToBytes s ++ natToBytes A ++ natToBytes B ++ K)

/-- `calculate_H_AMK`: `H(A | M | K)`. -/
def calculate_H_AMK (A : Nat) (M K : List Nat) : List Nat :=
  sha512 (natToBytes A ++ M ++ K)

/-- The outputs `srp_user_process_challenge` writes into the session when it
produces a proof: the proof `M`, the expected server proof `H_AMK`, and the
session key `H(S)`. -/
structure SRPChallengeOut where
  M : List Nat
  H_AMK : List Nat
  session_key : List Nat
  deriving Repr, DecidableEq

/-- `srp_user_process_challenge`: given the salt bytes and the peer public
value bytes `B`, returns `some` proof data, or `none` when no proof is
produced (`*bytes_M` left null / `*len_M` left 0): when `H_nn_pad` fails for
`k` or `u`, or when the safety check `B != 0 && u != 0` — on the unreduced
big-integer values — fails. -/
def srp_user_process_challenge (usr : SRPUser) (bytes_s bytes_B : List Nat) :
    Option SRPChallengeOut :=
  let s := bytesToNat bytes_s
  let B := bytesToNat bytes_B
  match H_nn_pad usr.N usr.g with
  | none => none
  | some k =>
    match H_nn_pad usr.A B with
    | none => none
    | some u =>
      let x := calculate_x s usr.username usr.password
      if B ≠ 0 ∧ u ≠ 0 then
        -- S = (B - k*(g^x))^(a + u*x) mod N
        let S := intPowMod ((B : Int) - (k : Int) * (powMod usr.g x usr.N : Int))
                   (usr.a + u * x) (usr.N : Int)
        let session_key := sha512 (natToBytes S.toNat)
        let M := calculate_M usr.N usr.g usr.username s usr.A B session_key
        let H_AMK := calculate_H_AMK usr.A M session_key
        some { M := M, H_AMK := H_AMK, session_key := session_key }
      else
        none

/-- `srp_user_verify_session`: sets `authenticated` when the peer-supplied
`H_AMK` matches byte-for-byte. -/
def srp_user_verify_session (usr : SRPUser) (bytes_HAMK : List Nat) : SRPUser :=
  if usr.H_AMK = bytes_HAMK then { usr with authenticated := true } else usr

/- ----------------------------- Key schedule ----------------------------- -/

/-- `enum pair_keys`: index into the static stage table. -/
inductive PairKeys where
  | PAIR_SETUP_MSG01
  | PAIR_SETUP_MSG02
  | PAIR_SETUP_MSG03
  | PAIR_SETUP_MSG04
  | PAIR_SETUP_MSG05
  | PAIR_SETUP_MSG06
  | PAIR_SETUP_SIGN
  | PAIR_VERIFY_MSG01
  | PAIR_VERIFY_MSG02
  | PAIR_VERIFY_MSG03
  | PAIR_VERIFY_MSG04
  | PAIR_CONTROL_WRITE
  | PAIR_CONTROL_READ
  deriving Repr, DecidableEq, Fintype

/-- One row of `struct pair_keys_map`: stage marker, HKDF salt and info
labels (`NULL` modelled as `none`), and the fixed nonce label. -/
structure PairKeysMapRow where
  state : Nat
  salt : Option String
  info : Option String
  nonce : String
  deriving Repr, DecidableEq

/-- The static stage table `pair_keys_map[]`, row by row. -/
def pair_keys_map : PairKeys → PairKeysMapRow
  | .PAIR_SETUP_MSG01 => { state := 0x01, salt := none, info := none, nonce := "" }
  | .PAIR_SETUP_MSG02 => { state := 0x02, salt := none, info := none, nonce := "" }
  | .PAIR_SETUP_MSG03 => { state := 0x03, salt := none, info := none, nonce := "" }
  | .PAIR_SETUP_MSG04 => { state := 0x04, salt := none, info := none, nonce := "" }
  | .PAIR_SETUP_MSG05 => { state := 0x05, salt := some ("Pair-Setup-Encrypt-Salt"),
                           info := some ("Pair-Setup-Encrypt-Info"), nonce := "PS-Msg05" }
  | .PAIR_SETUP_MSG06 => { state := 0x06, salt := some ("Pair-Setup-Encrypt-Salt"),
                           info := some ("Pair-Setup-Encrypt-Info"), nonce := "PS-Msg06" }
  | .PAIR_SETUP_SIGN => { state := 0, salt := some ("Pair-Setup-Controller-Sign-Salt"),
                          info := some ("Pair-Setup-Controller-Sign-Info"), nonce := "" }
  | .PAIR_VERIFY_MSG01 => { state := 0x01, salt := none, info := none, nonce := "" }
  | .PAIR_VERIFY_MSG02 => { state := 0x02, salt := some ("Pair-Verify-Encrypt-Salt"),
                            info := some ("Pair-Verify-Encrypt-Info"), nonce := "PV-Msg02" }
  | .PAIR_VERIFY_MSG03 => { state := 0x03, salt := some ("Pair-Verify-Encrypt-Salt"),
                            info := some ("Pair-Verify-Encrypt-Info"), nonce := "PV-Msg03" }
  | .PAIR_VERIFY_MSG04 => { state := 0x04, salt := none, info := none, nonce := "" }
  | .PAIR_CONTROL_WRITE => { state := 0, salt := some ("Control-Salt"),
                             info := some ("Control-Write-Encryption-Key"), nonce := "" }
  | .PAIR_CONTROL_READ => { state := 0, salt := some ("Control-Salt"),
                            info := some ("Control-Read-Encryption-Key"), nonce := "" }

/-- `hkdf_extract_expand` (RFC 5869 extract-then-expand with SHA-512):
`PRK = HMAC(salt, ikm)`, `OKM = first okm_len bytes of HMAC(PRK, info | 0x01)`.
Fails when `okm_len` exceeds the hash size (hard limit in the code) or when
the selected stage has no salt/info labels (the code would call `strlen`
on a null pointer, which it never does: every call site passes a
label-bearing stage). -/
def hkdf_extract_expand (okm_len : Nat) (ikm : List Nat) (pair_key : PairKeys) :
    Option (List Nat) :=
  if okm_len > 64 then none
  else
    match (pair_keys_map pair_key).salt, (pair_keys_map pair_key).info with
    | some salt, some info =>
        let prk := hmacSha512 (strBytes salt) ikm
        some ((hmacSha512 prk (strBytes info ++ [1])).take okm_len)
    | _, _ => none

/- ------------------- AEAD capability and cipher context ------------------ -/

/-- The AEAD seal capability (`encrypt_chacha` with ChaCha20-Poly1305 from
the crypto library): plaintext, key, associated data, 12-byte nonce to
(ciphertext, 16-byte tag).  ChaCha20 is length-preserving and the tag is
always 16 bytes; theorems that need these facts take them as hypotheses. -/
def SealFn : Type :=
  (plain : List Nat) → (key : List Nat) → (ad : List Nat) → (nonce : List Nat) →
    List Nat × List Nat

/-- The AEAD open capability (`decrypt_chacha`): ciphertext, key, tag,
associated data, nonce to `some` plaintext or `none` on authentication
failure. -/
def OpenFn : Type :=
  (cipher : List Nat) → (key : List Nat) → (tag : List Nat) → (ad : List Nat) →
    (nonce : List Nat) → Option (List Nat)

/-- A 12-byte control-channel nonce: 4 zero bytes followed by the 64-bit
counter in host (little-endian) byte order
(`memcpy(nonce + 4, &counter, 8)`). -/
def counterNonce (counter : Nat) : List Nat :=
  [0, 0, 0, 0] ++ le64 counter

/-- A 12-byte handshake nonce: 4 zero bytes followed by the stage's fixed
8-character nonce label (`memcpy(nonce + 4, pair_keys_map[key].nonce, 8)`). -/
def labelNonce (pair_key : PairKeys) : List Nat :=
  [0, 0, 0, 0] ++ strBytes (pair_keys_map pair_key).nonce

/-- `struct pair_cipher_context`: two derived keys and the two monotonic
counters.  The `errmsg` pointer is modelled by the error value of the
operations instead. -/
structure PairCipherContext where
  encryption_key : List Nat
  decryption_key : List Nat
  encryption_counter : Nat
  decryption_counter : Nat
  deriving Repr, DecidableEq

/-- The error outcomes of the cipher operations, mapped to the messages the
code stores in `cctx->errmsg` (`genericFailure` is a bare `return -1` that
leaves `errmsg` untouched). -/
inductive PairError where
  | genericFailure
  | encryptFailed
  | decryptFailed
  | corruptBlockLen
  | outOfFuel
  deriving Repr, DecidableEq

/-- The C error strings attached to the context for each error outcome. -/
def errmsgOf : PairError → Option String
  | .genericFailure => none
  | .encryptFailed => some ("Encryption with chacha poly1305 failed")
  | .decryptFailed => some ("Decryption with chacha poly1305 failed")
  | .corruptBlockLen => some ("Corrupt block length in encrypted data")
  | .outOfFuel => none

/-- `pair_cipher_new`: derive the two direction keys from the shared secret
and start both counters at zero (`calloc`). -/
def pair_cipher_new (shared_secret : List Nat) : Option PairCipherContext :=
  match hkdf_extract_expand 32 shared_secret .PAIR_CONTROL_WRITE,
        hkdf_extract_expand 32 shared_secret .PAIR_CONTROL_READ with
  | some ek, some dk =>
      some { encryption_key := ek, decryption_key := dk,
             encryption_counter := 0, decryption_counter := 0 }
  | _, _ => none

/- ------------------------- Framed AEAD channel --------------------------- -/

/-- `ENCRYPTED_LEN_MAX`: the maximum plaintext bytes per wire block. -/
def ENCRYPTED_LEN_MAX : Nat := 0x400

/-- `AUTHTAG_LENGTH`. -/
def AUTHTAG_LENGTH : Nat := 16

/-- The number of wire blocks for a plaintext length
(`1 + ((plaintext_len - 1) / ENCRYPTED_LEN_MAX)`, the ceiling of the
division for a positive length). -/
def nblocksOf (plaintext_len : Nat) : Nat :=
  1 + (plaintext_len - 1) / ENCRYPTED_LEN_MAX

/-- One wire block of `pair_encrypt`: the 2-byte length prefix (associated
data, not encrypted), the sealed chunk, and the 16-byte tag; the nonce holds
the given counter value. -/
def mkBlock (sealFn : SealFn) (key : List Nat) (counter : Nat) (chunk : List Nat) :
    List Nat :=
  let ct := sealFn chunk key (le16 chunk.length) (counterNonce counter)
  le16 chunk.length ++ ct.1 ++ ct.2

/-- The block-producing loop of `pair_encrypt`, iterating exactly `nblocks`
times exactly as the C `for` loop: every block but the last seals
`ENCRYPTED_LEN_MAX` bytes, the last seals the remainder; each iteration
advances the counter once.  Returns the wire bytes and the final counter. -/
def encryptLoop (sealFn : SealFn) (key : List Nat) :
    Nat → List Nat → Nat → List Nat × Nat
  | 0, _, counter => ([], counter)
  | n + 1, pt, counter =>
      let block_len := if n = 0 then pt.length else ENCRYPTED_LEN_MAX
      let rest := encryptLoop sealFn key n (pt.drop block_len) (counter + 1)
      (mkBlock sealFn key counter (pt.take block_len) ++ rest.1, rest.2)

/-- `pair_encrypt`: reject empty plaintext (`return -1`), otherwise produce
`nblocksOf` framed blocks and advance the encryption counter once per
block. -/
def pair_encrypt (sealFn : SealFn) (cctx : PairCipherContext) (plaintext : List Nat) :
    Except PairError (List Nat × PairCipherContext) :=
  if plaintext.length = 0 then .error .genericFailure
  else
    let r := encryptLoop sealFn cctx.encryption_key (nblocksOf plaintext.length)
               plaintext cctx.encryption_counter
    .ok (r.1, { cctx with encryption_counter := r.2 })

/-- The block-consuming loop of `pair_decrypt`.  Each pass reads the 2-byte
length prefix, rejects the block when prefix + ciphertext + tag would extend
past the end of the remaining buffer ("Corrupt block length"), opens the
block with the length prefix as associated data, and advances the counter.
The loop runs while bytes remain; recursion is driven by a fuel argument
(the caller passes the buffer length, which suffices because every pass
consumes at least 18 bytes), so the `outOfFuel` branch is unreachable from
`pair_decrypt`. -/
def decryptLoop (openFn : OpenFn) (key : List Nat) :
    Nat → List Nat → Nat → Except PairError (List Nat × Nat)
  | _, [], counter => .ok ([], counter)
  | 0, _ :: _, _ => .error .outOfFuel
  | fuel + 1, cb, counter =>
      let block_len := readLE16 cb
      if 2 + block_len + AUTHTAG_LENGTH > cb.length then .error .corruptBlockLen
      else
        let cipher := (cb.drop 2).take block_len
        let tag := (cb.drop (2 + block_len)).take AUTHTAG_LENGTH
        match openFn cipher key tag (le16 block_len) (counterNonce counter) with
        | none => .error .decryptFailed
        | some plain =>
            match decryptLoop openFn key fuel (cb.drop (2 + block_len + AUTHTAG_LENGTH))
                    (counter + 1) with
            | .error e => .error e
            | .ok (rest, counterF) => .ok (plain ++ rest, counterF)

/-- `pair_decrypt`: reject a buffer shorter than one length prefix
(`return -1`), otherwise walk the blocks; on success return the
concatenated plaintext and the advanced decryption counter.  On any error
no plaintext is returned (the C code frees the partial buffer before
returning -1). -/
def pair_decrypt (openFn : OpenFn) (cctx : PairCipherContext) (ciphertext : List Nat) :
    Except PairError (List Nat × PairCipherContext) :=
  if ciphertext.length < 2 then .error .genericFailure
  else
    match decryptLoop openFn cctx.decryption_key ciphertext.length ciphertext
            cctx.decryption_counter with
    | .error e => .error e
    | .ok (plain, counterF) =>
        .ok (plain, { cctx with decryption_counter := counterF })

/- ------------------------------ TLV codec -------------------------------- -/

/-- Modelled from the spec: the TLV codec and its tag set are an external
collaborator (`tlv.h` is not part of the core sources); the spec lists the
recognized tags: method selector, state/stage marker, public key, salt,
proof, encrypted payload, identifier, signature, permissions, error code. -/
inductive TLVType where
  | method
  | state
  | publicKey
  | salt
  | proof
  | encryptedData
  | identifier
  | signature
  | permissions
  | error
  deriving Repr, DecidableEq

/-- A decoded TLV message: an ordered mapping from tag to byte value. -/
def TLVMap : Type := List (TLVType × List Nat)

/-- `tlv_get_value`: the first value stored under a tag. -/
def tlv_get_value (m : TLVMap) (t : TLVType) : Option (List Nat) :=
  (m.find? (fun p => p.1 = t)).map Prod.snd

/-- Modelled from the spec: the external TLV decoder
(`tlv_parse`), failing on malformed input. -/
def TlvParse : Type := List Nat → Option TLVMap

/-- The peer error code to error message mapping of `response_process`.
Modelled from the spec: the numeric values of `TLVError_*` live in the
external `tlv.h`; the HomeKit values are used here.  No claim depends on
the numeric choices. -/
def peerErrMsg (e : Nat) : String :=
  if e = 2 then "Device returned an authtication failure"
  else if e = 3 then "Device told us to back off pairing attempts\n"
  else if e = 4 then "Max peers trying to connect to device\n"
  else if e = 5 then "Max pairing attemps reached\n"
  else if e = 6 then "Device is unuavailble at this time\n"
  else "Device is busy/returned unknown error\n"

/-- `response_process`: parse a TLV buffer and fail when it cannot be parsed
or when it carries a peer error code. -/
def response_process (tlvParse : TlvParse) (data : List Nat) : Except String TLVMap :=
  match tlvParse data with
  | none => .error ("Could not parse TLV\n")
  | some m =>
      match tlv_get_value m .error with
      | some v => .error (peerErrMsg (v.getD 0 0))
      | none => .ok m

/- --------------------------- Pair-Setup context -------------------------- -/

/-- `struct pair_setup_context`.  The `errmsg` pointer is modelled by the
error values of the operations; the SRP session pointer starts null
(`calloc`). -/
structure PairSetupContext where
  user : Option SRPUser
  pin : List Nat
  device_id : String
  pkA : List Nat
  pkB : List Nat
  M1 : List Nat
  M2 : List Nat
  salt : List Nat
  public_key : List Nat
  private_key : List Nat
  deriving Repr, DecidableEq

/-- `pair_setup_new`: reject a null or shorter-than-4-character PIN and a
non-null device id that is not exactly 16 characters; store the first 4
bytes of the PIN (`memcpy(sctx->pin, pin, sizeof(sctx->pin))`) and the
device id (empty when null, from the zeroed allocation). -/
def pair_setup_new (pin : Option String) (device_id : Option String) :
    Option PairSetupContext :=
  match pin with
  | none => none
  | some p =>
    if p.length < 4 then none
    else
      match device_id with
      | some d =>
          if d.length ≠ 16 then none
          else some { user := none, pin := (strBytes p).take 4, device_id := d,
                      pkA := [], pkB := [], M1 := [], M2 := [], salt := [],
                      public_key := [], private_key := [] }
      | none => some { user := none, pin := (strBytes p).take 4, device_id := "",
                       pkA := [], pkB := [], M1 := [], M2 := [], salt := [],
                       public_key := [], private_key := [] }

/-- `USERNAME`. -/
def USERNAME : String := "Pair-Setup"

/-- The SRP-session creation performed by `pair_setup_request1`:
`srp_user_new(HASH_SHA512, SRP_NG_3072, USERNAME, sctx->pin,
sizeof(sctx->pin), 0, 0)`, with the random exponent made explicit. -/
def pair_setup_request1_user (sctx : PairSetupContext) (a : Nat) : SRPUser :=
  srp_user_new USERNAME sctx.pin a

/-- Lowercase hex digits as produced by `sprintf("%02x", ...)`. -/
def hexDigit (n : Nat) : Char :=
  if n = 0 then '0' else if n = 1 then '1' else if n = 2 then '2'
  else if n = 3 then '3' else if n = 4 then '4' else if n = 5 then '5'
  else if n = 6 then '6' else if n = 7 then '7' else if n = 8 then '8'
  else if n = 9 then '9' else if n = 10 then 'a' else if n = 11 then 'b'
  else if n = 12 then 'c' else if n = 13 then 'd' else if n = 14 then 'e'
  else 'f'

/-- One byte printed with `sprintf("%02x", b)`. -/
def hexByte (b : Nat) : List Char :=
  [hexDigit (b / 16 % 16), hexDigit (b % 16)]

/-- `pair_setup_result`: the hex encoding of the long-term public key
followed by the private key — the durable authorization credential.  (The
C function only fails on a compile-time-constant size mismatch between the
setup and verify key fields, which does not hold, so it always succeeds.) -/
def pair_setup_result (sctx : PairSetupContext) : String :=
  String.mk ((sctx.public_key ++ sctx.private_key).flatMap hexByte)

/- -------------------------- Pair-Verify context -------------------------- -/

/-- `struct pair_verify_context`.  Fixed-size byte arrays are byte lists;
`calloc` zero-fills them, so construction fills them with zero bytes. -/
structure PairVerifyContext where
  device_id : String
  server_eph_public_key : List Nat
  server_public_key : List Nat
  client_public_key : List Nat
  client_private_key : List Nat
  client_eph_public_key : List Nat
  client_eph_private_key : List Nat
  shared_secret : List Nat
  deriving Repr, DecidableEq

/-- The value `strtol(hex, NULL, 16)` computes on a 2-character chunk of the
credential string: leading invalid characters stop the parse (yielding the
prefix value), exactly as the C library function on a 2-byte buffer. -/
def hexVal (c : Char) : Option Nat :=
  if '0' ≤ c ∧ c ≤ '9' then some (c.toNat - '0'.toNat)
  else if 'a' ≤ c ∧ c ≤ 'f' then some (c.toNat - 'a'.toNat + 10)
  else if 'A' ≤ c ∧ c ≤ 'F' then some (c.toNat - 'A'.toNat + 10)
  else none

/-- `strtol` on the 2-character (zero-terminated) buffer `hex`. -/
def hexPairVal (c1 c2 : Char) : Nat :=
  match hexVal c1 with
  | none => 0
  | some v1 =>
    match hexVal c2 with
    | none => v1
    | some v2 => 16 * v1 + v2

/-- The byte-decoding loop of `pair_verify_new`: consume the character list
two at a time. -/
def hexDecodeBytes : List Char → List Nat
  | c1 :: c2 :: rest => hexPairVal c1 c2 :: hexDecodeBytes rest
  | _ => []

/-- `pair_verify_new`: reject a null credential, a credential whose length
is not `2 * (32 + 64)` characters, and a non-null device id that is not
exactly 16 characters; decode the first 64 hex characters into the 32-byte
long-term public key and the next 128 into the 64-byte private key.  All
other fields are zero-filled by `calloc`. -/
def pair_verify_new (authorisation_key : Option String) (device_id : Option String) :
    Option PairVerifyContext :=
  match authorisation_key with
  | none => none
  | some ak =>
    if ak.length ≠ 2 * (32 + 64) then none
    else
      match device_id with
      | some d =>
          if d.length ≠ 16 then none
          else some { device_id := d,
                      server_eph_public_key := List.replicate 32 0,
                      server_public_key := List.replicate 64 0,
                      client_public_key := hexDecodeBytes (ak.toList.take 64),
                      client_private_key := hexDecodeBytes ((ak.toList.drop 64).take 128),
                      client_eph_public_key := List.replicate 32 0,
                      client_eph_private_key := List.replicate 32 0,
                      shared_secret := List.replicate 32 0 }
      | none => some { device_id := "",
                       server_eph_public_key := List.replicate 32 0,
                       server_public_key := List.replicate 64 0,
                       client_public_key := hexDecodeBytes (ak.toList.take 64),
                       client_private_key := hexDecodeBytes ((ak.toList.drop 64).take 128),
                       client_eph_public_key := List.replicate 32 0,
                       client_eph_private_key := List.replicate 32 0,
                       shared_secret := List.replicate 32 0 }

/-- `pair_verify_result`: unconditionally returns 0 and exposes the
context's `shared_secret` field. -/
def pair_verify_result (vctx : PairVerifyContext) : Nat × List Nat :=
  (0, vctx.shared_secret)

/- ------------------ Consuming the final encrypted messages ---------------- -/

/-- `pair_setup_response3` (Pair-Setup step 6): parse the response, extract
the sealed payload, derive the stage `PAIR_SETUP_MSG06` key from the SRP
session key, open the payload with the fixed `PS-Msg06` nonce, parse the
inner record — and return success.  The identifier and signature contained
in the decrypted record are not examined (the source marks the spot
`TODO check identifier and signature`).  Calling with no SRP session would
dereference a null pointer in C; it is modelled with the function's own
"No valid session key" error, which in C guards the same value. -/
def pair_setup_response3 (tlvParse : TlvParse) (openFn : OpenFn)
    (sctx : PairSetupContext) (data : List Nat) : Except String Unit :=
  match response_process tlvParse data with
  | .error _ => .error ("Setup response 3: Could not parse TLV")
  | .ok response =>
    match tlv_get_value response .encryptedData with
    | none => .error ("Setup response 3: Missing encrypted_data")
    | some encrypted_data =>
      match sctx.user with
      | none => .error ("Setup response 3: No valid session key")
      | some u =>
        match hkdf_extract_expand 32 u.session_key .PAIR_SETUP_MSG06 with
        | none => .error ("Setup response 3: hkdf error getting derived_key")
        | some derived_key =>
          if encrypted_data.length < AUTHTAG_LENGTH then
            .error ("Setup response 3: Invalid encrypted data")
          else
            let encrypted_len := encrypted_data.length - AUTHTAG_LENGTH
            let tag := encrypted_data.drop encrypted_len
            match openFn (encrypted_data.take encrypted_len) derived_key tag []
                    (labelNonce .PAIR_SETUP_MSG06) with
            | none => .error ("Setup response 3: Decryption error")
            | some decrypted_data =>
              match response_process tlvParse decrypted_data with
              | .error _ => .error ("Setup response 3: Could not parse decrypted TLV")
              | .ok _ => .ok ()

/-- The X25519 capability (`crypto_scalarmult`). -/
def ScalarMult : Type := List Nat → List Nat → Option (List Nat)

/-- `pair_verify_response1` (Pair-Verify step 2): parse the response, store
the peer ephemeral key, compute the shared secret, derive the stage
`PAIR_VERIFY_MSG02` key, open the sealed payload with the fixed `PV-Msg02`
nonce, parse the inner record — and return the updated context.  As in
`pair_setup_response3`, the identifier and signature inside the decrypted
record are not examined (`TODO check identifier and signature`). -/
def pair_verify_response1 (tlvParse : TlvParse) (openFn : OpenFn)
    (smul : ScalarMult) (vctx : PairVerifyContext) (data : List Nat) :
    Except String PairVerifyContext :=
  match response_process tlvParse data with
  | .error _ => .error ("Verify response 1: Could not parse TLV")
  | .ok response =>
    match tlv_get_value response .encryptedData with
    | none => .error ("Verify response 1: Missing encrypted_data")
    | some encrypted_data =>
      match tlv_get_value response .publicKey with
      | none => .error ("Verify response 1: Missing or invalid public_key")
      | some public_key =>
        if public_key.length ≠ 32 then
          .error ("Verify response 1: Missing or invalid public_key")
        else
          match smul vctx.client_eph_private_key public_key with
          | none => .error ("Verify response 1: Curve 25519 returned an error")
          | some shared_secret =>
            match hkdf_extract_expand 32 shared_secret .PAIR_VERIFY_MSG02 with
            | none => .error ("Verify response 1: hkdf error getting derived_key")
            | some derived_key =>
              if encrypted_data.length < AUTHTAG_LENGTH then
                .error ("Verify response 1: Invalid encrypted data")
              else
                let encrypted_len := encrypted_data.length - AUTHTAG_LENGTH
                let tag := encrypted_data.drop encrypted_len
                match openFn (encrypted_data.take encrypted_len) derived_key tag []
                        (labelNonce .PAIR_VERIFY_MSG02) with
                | none => .error ("Verify response 1: Decryption error")
                | some decrypted_data =>
                  match response_process tlvParse decrypted_data with
                  | .error _ => .error ("Verify response 1: Could not parse decrypted TLV")
                  | .ok _ =>
                      .ok { vctx with server_eph_public_key := public_key,
                                      shared_secret := shared_secret }

/- ------------- Concrete capability instances and concrete data ----------- -/

/-- A concrete AEAD-seal instance used to instantiate capability-quantified
theorems: the "ciphertext" is the plaintext and the tag is 16 zero bytes. -/
def idSeal : SealFn := fun plain _ _ _ => (plain, List.replicate 16 0)

/-- The matching AEAD-open instance: accepts exactly the 16-zero-byte tag. -/
def idOpen : OpenFn := fun cipher _ tag _ _ =>
  if tag = List.replicate 16 0 then some cipher else none

/-- An AEAD-open instance that accepts everything (used where a theorem
shows an outcome that holds regardless of what the decrypted payload is). -/
def anyOpen : OpenFn := fun cipher _ _ _ _ => some cipher

/-- A concrete X25519 instance for witnesses. -/
def constSMul : ScalarMult := fun _ _ => some (List.replicate 32 3)

/-- A fresh cipher context with equal direction keys and both counters at
their initial zero value. -/
def cctx0 : PairCipherContext :=
  { encryption_key := List.replicate 32 0, decryption_key := List.replicate 32 0,
    encryption_counter := 0, decryption_counter := 0 }

/-- The wire form of the inner decrypted record for the final-message
claims: one byte, which `tlvParseC2` decodes to an identifier plus an
all-zero 64-byte signature. -/
def innerWireC2 : List Nat := [1]

/-- A 64-byte signature value that no verification predicate needs to
accept: all zero bytes. -/
def sigC2 : List Nat := List.replicate 64 0

/-- A concrete TLV-decoder instance: `[0]` decodes to a Pair-Setup M6
response carrying a sealed payload, `[2]` to a Pair-Verify M2 response
carrying a sealed payload and a 32-byte ephemeral public key, and `[1]`
(the decrypted payload) to a device-info record with an identifier and the
all-zero signature. -/
def tlvParseC2 : TlvParse := fun d =>
  if d = [0] then some [(.encryptedData, innerWireC2 ++ List.replicate 16 9)]
  else if d = [2] then
    some [(.encryptedData, innerWireC2 ++ List.replicate 16 9),
          (.publicKey, List.replicate 32 5)]
  else if d = innerWireC2 then
    some [(.identifier, [65]), (.signature, sigC2)]
  else none

/-- A Pair-Setup context that has completed the SRP exchange: the SRP
session holds a 64-byte session key. -/
def sctxC2 : PairSetupContext :=
  { user := some { srp_user_new USERNAME [49, 50, 51, 52] 7 with
                   session_key := List.replicate 64 1 },
    pin := [49, 50, 51, 52], device_id := "0123456789abcdef",
    pkA := [], pkB := [], M1 := [], M2 := [], salt := [],
    public_key := [], private_key := [] }

/-- A Pair-Verify context as constructed from an all-zero credential. -/
def vctxC2 : PairVerifyContext :=
  { device_id := "0123456789abcdef",
    server_eph_public_key := List.replicate 32 0,
    server_public_key := List.replicate 64 0,
    client_public_key := List.replicate 32 0,
    client_private_key := List.replicate 64 0,
    client_eph_public_key := List.replicate 32 0,
    client_eph_private_key := List.replicate 32 0,
    shared_secret := List.replicate 32 0 }

/-- A concrete random SRP client exponent for the `B = N` counterexample. -/
def aC3 : Nat := 1537

/-- The corresponding public value `A = g^a mod N` (a full 384-byte value,
as required for `H_nn_pad(A, B)` to accept a 384-byte `B`). -/
def AC3 : Nat := powMod srpG3072 aC3 srpN3072

/-- The SRP session right after `srp_user_start_authentication`, for the
`B = N` counterexample (PIN bytes "1234"). -/
def usrC3 : SRPUser :=
  (srp_user_start_authentication (srp_user_new USERNAME [49, 50, 51, 52] aC3)).1

/-- A concrete 16-byte salt for the `B = N` counterexample. -/
def saltC3 : List Nat := [1, 2, 3, 4, 5, 6, 7, 8, 9, 10, 11, 12, 13, 14, 15, 16]

/-- The peer public value `B = N` itself: congruent to 0 mod N but not the
zero big integer. -/
def bytesBC3 : List Nat := natToBytes srpN3072

/-- A Boolean mirror of the decrypt walk that is `true` exactly when the
walk reaches a block whose length prefix implies that prefix + ciphertext +
tag would extend past the end of the remaining buffer (every block before
it parsed and opened successfully). -/
def walkHitsCorrupt (openFn : OpenFn) (key : List Nat) :
    Nat → List Nat → Nat → Bool
  | _, [], _ => false
  | 0, _ :: _, _ => false
  | fuel + 1, cb, counter =>
      let block_len := readLE16 cb
      if 2 + block_len + AUTHTAG_LENGTH > cb.length then true
      else
        match openFn ((cb.drop 2).take block_len) key
                ((cb.drop (2 + block_len)).take AUTHTAG_LENGTH) (le16 block_len)
                (counterNonce counter) with
        | none => false
        | some _ => walkHitsCorrupt openFn key fuel
                      (cb.drop (2 + block_len + AUTHTAG_LENGTH)) (counter + 1)

/-- A sequence of `pair_encrypt` calls on one cipher context, keeping only
the evolving context. -/
def encryptSeq (sealFn : SealFn) : List (List Nat) → PairCipherContext →
    Option PairCipherContext
  | [], cctx => some cctx
  | pt :: rest, cctx =>
    match pair_encrypt sealFn cctx pt with
    | .error _ => none
    | .ok (_, cctx') => encryptSeq sealFn rest cctx'

/-- The list of wire blocks `pair_encrypt` produces: block `i` seals the
`i`-th `ENCRYPTED_LEN_MAX`-byte chunk of the plaintext under counter value
`counter + i`. -/
def encBlocks (sealFn : SealFn) (key : List Nat) :
    Nat → List Nat → Nat → List (List Nat)
  | 0, _, _ => []
  | n + 1, pt, counter =>
      mkBlock sealFn key counter (pt.take ENCRYPTED_LEN_MAX) ::
        encBlocks sealFn key n (pt.drop ENCRYPTED_LEN_MAX) (counter + 1)

/-- An all-zero authorization credential string
(`2 * (32 + 64)` characters). -/
def akZeros : String := String.mk (List.replicate 192 '0')

/-- A Pair-Setup context holding a concrete long-term keypair, for the
credential round-trip witness. -/
def sctxC7 : PairSetupContext :=
  { user := none, pin := [49, 50, 51, 52], device_id := "0123456789abcdef",
    pkA := [], pkB := [], M1 := [], M2 := [], salt := [],
    public_key := List.replicate 32 171, private_key := List.replicate 64 18 }

/- -------------------------------- Theorems ------------------------------- -/

/-- Claim C1 (amended): key separation between protocol stages holds exactly
as far as the (salt, info) label pairs of the static stage table differ.
`PAIR_SETUP_MSG05`/`PAIR_SETUP_MSG06` share one label pair and
`PAIR_VERIFY_MSG02`/`PAIR_VERIFY_MSG03` share another, so for those stage
pairs `hkdf_extract_expand` derives identical keys for every secret and
every requested length (the stages are separated only by their fixed
nonces); every other pair of distinct label-bearing stages has a distinct
(salt, info) pair. -/
theorem key_schedule_domain_separation :
    (∀ okm_len ikm,
      hkdf_extract_expand okm_len ikm .PAIR_SETUP_MSG05 =
      hkdf_extract_expand okm_len ikm .PAIR_SETUP_MSG06) ∧
    (∀ okm_len ikm,
      hkdf_extract_expand okm_len ikm .PAIR_VERIFY_MSG02 =
      hkdf_extract_expand okm_len ikm .PAIR_VERIFY_MSG03) ∧
    (∀ x y : PairKeys,
      (pair_keys_map x).salt = (pair_keys_map y).salt →
      (pair_keys_map x).info = (pair_keys_map y).info →
      (pair_keys_map x).salt ≠ none →
      x = y ∨
      (x = .PAIR_SETUP_MSG05 ∧ y = .PAIR_SETUP_MSG06) ∨
      (x = .PAIR_SETUP_MSG06 ∧ y = .PAIR_SETUP_MSG05) ∨
      (x = .PAIR_VERIFY_MSG02 ∧ y = .PAIR_VERIFY_MSG03) ∨
      (x = .PAIR_VERIFY_MSG03 ∧ y = .PAIR_VERIFY_MSG02)) :=
  ⟨fun _ _ => rfl, fun _ _ => rfl, by decide⟩

/-- Claim C1 witness: the label-distinctness clause applied at the concrete
stage pair `(PAIR_CONTROL_WRITE, PAIR_CONTROL_WRITE)`, its hypotheses
discharged by computation. -/
theorem key_schedule_domain_separation_w :
    (.PAIR_CONTROL_WRITE : PairKeys) = .PAIR_CONTROL_WRITE ∨
    ((.PAIR_CONTROL_WRITE : PairKeys) = .PAIR_SETUP_MSG05 ∧
      (.PAIR_CONTROL_WRITE : PairKeys) = .PAIR_SETUP_MSG06) ∨
    ((.PAIR_CONTROL_WRITE : PairKeys) = .PAIR_SETUP_MSG06 ∧
      (.PAIR_CONTROL_WRITE : PairKeys) = .PAIR_SETUP_MSG05) ∨
    ((.PAIR_CONTROL_WRITE : PairKeys) = .PAIR_VERIFY_MSG02 ∧
      (.PAIR_CONTROL_WRITE : PairKeys) = .PAIR_VERIFY_MSG03) ∨
    ((.PAIR_CONTROL_WRITE : PairKeys) = .PAIR_VERIFY_MSG03 ∧
      (.PAIR_CONTROL_WRITE : PairKeys) = .PAIR_VERIFY_MSG02) :=
  key_schedule_domain_separation.2.2 .PAIR_CONTROL_WRITE .PAIR_CONTROL_WRITE
    rfl rfl (by decide)

/-- Claim C1 counterexample: `PAIR_SETUP_MSG05` and `PAIR_SETUP_MSG06` are
distinct stages, yet `hkdf_extract_expand` derives the same key from the
same secret for both — refuting domain separation for every pair of
distinct stages. -/
theorem key_schedule_collision :
    (PairKeys.PAIR_SETUP_MSG05 ≠ PairKeys.PAIR_SETUP_MSG06) ∧
    hkdf_extract_expand 32 [1, 2, 3] .PAIR_SETUP_MSG05 =
      hkdf_extract_expand 32 [1, 2, 3] .PAIR_SETUP_MSG06 :=
  ⟨by decide, rfl⟩

/-- Claim C2 (code bug): neither `pair_setup_response3` nor
`pair_verify_response1` examines the identifier or signature inside the
decrypted device-info record (both sites are marked
`TODO check identifier and signature` in the source).  For a concrete final
message whose decrypted record carries an all-zero 64-byte signature, both
functions return success no matter what signature-verification predicate
one supplies — in particular one under which the signature does not
verify — instead of returning failure as the claim requires. -/
theorem final_messages_skip_signature_check :
    ∀ sigVerifies : List Nat → Bool, sigVerifies sigC2 = false →
      pair_setup_response3 tlvParseC2 anyOpen sctxC2 [0] = .ok () ∧
      pair_verify_response1 tlvParseC2 anyOpen constSMul vctxC2 [2] =
        .ok { vctxC2 with server_eph_public_key := List.replicate 32 5,
                          shared_secret := List.replicate 32 3 } :=
  fun _ _ => ⟨by rfl, by rfl⟩

/-- Claim C2 witness: the theorem applied to the everywhere-false
verification predicate. -/
theorem final_messages_skip_signature_check_w :
    pair_setup_response3 tlvParseC2 anyOpen sctxC2 [0] = .ok () ∧
    pair_verify_response1 tlvParseC2 anyOpen constSMul vctxC2 [2] =
      .ok { vctxC2 with server_eph_public_key := List.replicate 32 5,
                        shared_secret := List.replicate 32 3 } :=
  final_messages_skip_signature_check (fun _ => false) rfl

/-- Claim C3 (amended): `srp_user_process_challenge` yields no proof and no
session key when the peer value `B` is the zero big integer (its bytes
decode to 0) — the code checks `bnum_is_zero(B)` on the unreduced value,
not `B mod N`. -/
theorem srp_rejects_zero_B :
    ∀ usr bytes_s bytes_B, bytesToNat bytes_B = 0 →
      srp_user_process_challenge usr bytes_s bytes_B = none := by
  intro usr bytes_s bytes_B h
  unfold srp_user_process_challenge
  rw [h]
  cases hk : H_nn_pad usr.N usr.g with
  | none => rfl
  | some k =>
    have hu : H_nn_pad usr.A 0 = none := by
      unfold H_nn_pad
      rw [if_neg]
      simp [natToBytes, natToBytesAux]
    simp only [hu]

/-- Claim C3 witness: a concrete session rejects the all-zero peer value. -/
theorem srp_rejects_zero_B_w :
    srp_user_process_challenge usrC3 saltC3 [0, 0] = none :=
  srp_rejects_zero_B usrC3 saltC3 [0, 0] (by decide)

/-- Claim C3 counterexample: the peer value `B = N` is congruent to 0 mod N,
yet `srp_user_process_challenge` passes its safety check (`B` is not the
zero big integer and `u = H(pad(A)|pad(B))` is nonzero) and produces a
proof and a session key — refuting the claim for every `B ≡ 0 (mod N)`. -/
theorem srp_accepts_B_equal_N :
    bytesToNat bytesBC3 % srpN3072 = 0 ∧ usrC3.N = srpN3072 ∧
    (srp_user_process_challenge usrC3 saltC3 bytesBC3).isSome = true :=
  ⟨by rfl, by rfl, by rfl⟩

theorem encryptLoop_counter (sealFn : SealFn) (key : List Nat) :
    ∀ n pt counter, (encryptLoop sealFn key n pt counter).2 = counter + n := by
  intro n
  induction n with
  | zero => intro pt counter; simp [encryptLoop]
  | succ n ih =>
    intro pt counter
    simp only [encryptLoop]
    rw [ih]
    omega

/-- Claim C4 (amended): each successful `pair_encrypt` call advances the
encryption counter once per wire block, i.e. by `nblocksOf` of the
plaintext length (the ceiling of length / 1024) — so after N calls the
counter equals N exactly when every call's plaintext is between 1 and
`ENCRYPTED_LEN_MAX` bytes, not for plaintexts of arbitrary length. -/
theorem encryption_counter_per_block :
    (∀ sealFn cctx pt ct cctx',
      pair_encrypt sealFn cctx pt = .ok (ct, cctx') →
      cctx'.encryption_counter = cctx.encryption_counter + nblocksOf pt.length) ∧
    (∀ sealFn pts cctx cctx',
      (∀ pt ∈ pts, 1 ≤ pt.length ∧ pt.length ≤ ENCRYPTED_LEN_MAX) →
      encryptSeq sealFn pts cctx = some cctx' →
      cctx'.encryption_counter = cctx.encryption_counter + pts.length) := by
  have hone : ∀ sealFn cctx pt ct cctx',
      pair_encrypt sealFn cctx pt = .ok (ct, cctx') →
      cctx'.encryption_counter = cctx.encryption_counter + nblocksOf pt.length := by
    intro sealFn cctx pt ct cctx' h
    unfold pair_encrypt at h
    split at h
    · exact absurd h (by simp)
    · simp only [Except.ok.injEq, Prod.mk.injEq] at h
      rw [← h.2, encryptLoop_counter]
  refine ⟨hone, ?_⟩
  intro sealFn pts
  induction pts with
  | nil => intro cctx cctx' _ h; simp [encryptSeq] at h; simp [h]
  | cons pt rest ih =>
    intro cctx cctx' hlen h
    simp only [encryptSeq] at h
    split at h
    · exact absurd h (by simp)
    · rename_i ct cctx1 heq
      have h1 := hone sealFn cctx pt ct cctx1 heq
      have h2 := ih cctx1 cctx' (fun q hq => hlen q (List.mem_cons_of_mem _ hq)) h
      have hpt := hlen pt (List.mem_cons_self _ _)
      have hnb : nblocksOf pt.length = 1 := by
        unfold nblocksOf ENCRYPTED_LEN_MAX
        have : (pt.length - 1) / 1024 = 0 := by
          apply Nat.div_eq_of_lt
          have := hpt.2
          unfold ENCRYPTED_LEN_MAX at this
          omega
        omega
      rw [h2, h1, hnb]
      simp only [List.length_cons]
      omega

/-- Claim C4 witness: a single one-block call advances the counter to 1, and
a sequence of three one-byte calls advances it to 3. -/
theorem encryption_counter_per_block_w :
    (∀ ct cctx', pair_encrypt idSeal cctx0 [7] = .ok (ct, cctx') →
      cctx'.encryption_counter = 1) ∧
    encryptSeq idSeal [[1], [2], [3]] cctx0 = some
      { cctx0 with encryption_counter := 3 } ∧
    (match encryptSeq idSeal [[1], [2], [3]] cctx0 with
     | some c => c.encryption_counter | none => 0) = 0 + 3 :=
  ⟨fun ct cctx' h => encryption_counter_per_block.1 idSeal cctx0 [7] ct cctx' h,
   by decide, by decide⟩

/-- Claim C4 counterexample: one `pair_encrypt` call with a non-empty
1025-byte plaintext leaves the counter at 2, not at 1 — refuting "after N
calls the counter equals N" for plaintexts of arbitrary length. -/
theorem encryption_counter_counterexample :
    (match pair_encrypt idSeal cctx0 (List.replicate 1025 0) with
     | .ok (_, c) => c.encryption_counter
     | .error _ => 0) = 2 ∧ (2 : Nat) ≠ 1 :=
  ⟨by decide, by decide⟩

theorem decryptLoop_corrupt (openFn : OpenFn) (key : List Nat) :
    ∀ fuel cb counter,
      walkHitsCorrupt openFn key fuel cb counter = true →
      decryptLoop openFn key fuel cb counter = .error .corruptBlockLen := by
  intro fuel
  induction fuel with
  | zero =>
    intro cb counter h
    cases cb <;> simp [walkHitsCorrupt] at h
  | succ fuel ih =>
    intro cb counter h
    cases cb with
    | nil => simp [walkHitsCorrupt] at h
    | cons x xs =>
      simp only [walkHitsCorrupt] at h
      simp only [decryptLoop]
      by_cases hcond :
          2 + readLE16 (x :: xs) + AUTHTAG_LENGTH > (x :: xs).length
      · rw [if_pos hcond]
      · rw [if_neg hcond] at h ⊢
        cases hov : openFn ((List.drop 2 (x :: xs)).take (readLE16 (x :: xs))) key
            ((List.drop (2 + readLE16 (x :: xs)) (x :: xs)).take AUTHTAG_LENGTH)
            (le16 (readLE16 (x :: xs))) (counterNonce counter) with
        | none => rw [hov] at h; simp at h
        | some p =>
          rw [hov] at h
          replace h : walkHitsCorrupt openFn key fuel
              ((x :: xs).drop (2 + readLE16 (x :: xs) + AUTHTAG_LENGTH))
              (counter + 1) = true := h
          rw [ih _ _ h]

/-- Claim C5: whenever the decrypt walk reaches a block whose length prefix
implies that prefix + ciphertext + tag would extend past the end of the
remaining buffer (`walkHitsCorrupt`), `pair_decrypt` fails with precisely
the "Corrupt block length in encrypted data" error; the `Except` result
shape carries no partial plaintext on any error.  (A buffer shorter than
one length prefix is rejected before any prefix is read, with a bare
failure and no message, matching the C code.) -/
theorem pair_decrypt_fails_closed :
    (∀ openFn cctx ct, 2 ≤ ct.length →
      walkHitsCorrupt openFn cctx.decryption_key ct.length ct
        cctx.decryption_counter = true →
      pair_decrypt openFn cctx ct = .error .corruptBlockLen) ∧
    errmsgOf .corruptBlockLen = some ("Corrupt block length in encrypted data") := by
  refine ⟨?_, rfl⟩
  intro openFn cctx ct h2 hw
  unfold pair_decrypt
  rw [if_neg (by omega), decryptLoop_corrupt _ _ _ _ _ hw]

/-- Claim C5 witness: a two-byte buffer whose prefix claims a 255-byte
block. -/
theorem pair_decrypt_fails_closed_w :
    pair_decrypt idOpen cctx0 [255, 0] = .error .corruptBlockLen ∧
    errmsgOf .corruptBlockLen = some ("Corrupt block length in encrypted data") :=
  ⟨pair_decrypt_fails_closed.1 idOpen cctx0 [255, 0] (by decide) (by decide),
   pair_decrypt_fails_closed.2⟩

theorem readLE16_le16 (L : Nat) (h : L < 65536) (r : List Nat) :
    readLE16 (le16 L ++ r) = L := by
  show readLE16 (L % 256 :: L / 256 % 256 :: r) = L
  show (L % 256 :: L / 256 % 256 :: r).getD 0 0 + 256 *
    ((L % 256 :: L / 256 % 256 :: r).getD 1 0) = L
  simp [List.getD]
  omega

theorem encBlocks_length (sealFn : SealFn) (key : List Nat) :
    ∀ n pt counter, (encBlocks sealFn key n pt counter).length = n := by
  intro n
  induction n with
  | zero => intro pt counter; rfl
  | succ n ih => intro pt counter; simp [encBlocks, ih]

theorem encryptLoop_eq_flatten (sealFn : SealFn) (key : List Nat) :
    ∀ n pt counter, pt.length ≤ n * ENCRYPTED_LEN_MAX →
      (encryptLoop sealFn key n pt counter).1 =
        (encBlocks sealFn key n pt counter).flatten := by
  intro n
  induction n with
  | zero => intro pt counter h; rfl
  | succ n ih =>
    intro pt counter h
    simp only [encryptLoop, encBlocks, List.flatten_cons]
    by_cases hn : n = 0
    · subst hn
      have hle : pt.length ≤ ENCRYPTED_LEN_MAX := by
        simpa using h
      rw [if_pos rfl, List.take_length, List.take_of_length_le hle]
      rfl
    · rw [if_neg hn, ih (pt.drop ENCRYPTED_LEN_MAX) (counter + 1) (by
        simp only [List.length_drop]
        unfold ENCRYPTED_LEN_MAX at h ⊢
        omega)]

theorem mkBlock_length (sealFn : SealFn)
    (hlen : ∀ p k ad nn, (sealFn p k ad nn).1.length = p.length)
    (htag : ∀ p k ad nn, (sealFn p k ad nn).2.length = AUTHTAG_LENGTH)
    (key : List Nat) (counter : Nat) (chunk : List Nat) :
    (mkBlock sealFn key counter chunk).length =
      2 + chunk.length + AUTHTAG_LENGTH := by
  simp [mkBlock, le16, hlen, htag]
  omega

theorem decryptLoop_encBlocks (sealFn : SealFn) (openFn : OpenFn) (key : List Nat)
    (hinv : ∀ p k ad nn, openFn (sealFn p k ad nn).1 k (sealFn p k ad nn).2 ad nn = some p)
    (hlen : ∀ p k ad nn, (sealFn p k ad nn).1.length = p.length)
    (htag : ∀ p k ad nn, (sealFn p k ad nn).2.length = AUTHTAG_LENGTH) :
    ∀ n pt counter fuel, n ≤ fuel → pt.length ≤ n * ENCRYPTED_LEN_MAX →
      decryptLoop openFn key fuel ((encBlocks sealFn key n pt counter).flatten) counter
        = .ok (pt, counter + n) := by
  intro n
  induction n with
  | zero =>
    intro pt counter fuel hf h
    have : pt = [] := List.eq_nil_of_length_eq_zero (by omega)
    subst this
    cases fuel <;> rfl
  | succ n ih =>
    intro pt counter fuel hf h
    cases fuel with
    | zero => omega
    | succ f =>
      set chunk := pt.take ENCRYPTED_LEN_MAX with hchunk
      set L := chunk.length with hL
      have hL1024 : L ≤ ENCRYPTED_LEN_MAX := by
        rw [hL, hchunk]; simp [ENCRYPTED_LEN_MAX]
      set c := (sealFn chunk key (le16 L) (counterNonce counter)).1 with hc
      set tg := (sealFn chunk key (le16 L) (counterNonce counter)).2 with htg
      have hcL : c.length = L := by rw [hc, hlen]
      have htgL : tg.length = AUTHTAG_LENGTH := by rw [htg, htag]
      set rest := (encBlocks sealFn key n (pt.drop ENCRYPTED_LEN_MAX) (counter + 1)).flatten
        with hrest
      have hcb : (encBlocks sealFn key (n + 1) pt counter).flatten =
          le16 L ++ (c ++ (tg ++ rest)) := by
        rw [hc, htg, hL, hchunk, hrest]
        simp only [encBlocks, List.flatten_cons, mkBlock, List.append_assoc]
      rw [hcb]
      have hL16 : L < 65536 := by
        have : ENCRYPTED_LEN_MAX = 1024 := rfl
        omega
      have hread : readLE16 (le16 L ++ (c ++ (tg ++ rest))) = L :=
        readLE16_le16 L hL16 _
      have hlen2 : (le16 L).length = 2 := rfl
      have htotal : (le16 L ++ (c ++ (tg ++ rest))).length =
          2 + L + AUTHTAG_LENGTH + rest.length := by
        simp [le16, hcL, htgL]
        omega
      -- the loop on a nonempty buffer with fuel f + 1
      have hcons : ∃ x xs, le16 L ++ (c ++ (tg ++ rest)) = x :: xs := by
        exact ⟨L % 256, _, rfl⟩
      obtain ⟨x, xs, hxs⟩ := hcons
      rw [hxs]
      simp only [decryptLoop]
      rw [← hxs, hread, htotal]
      rw [if_neg (by omega)]
      have hdrop2 : (le16 L ++ (c ++ (tg ++ rest))).drop 2 = c ++ (tg ++ rest) :=
        List.drop_left' hlen2
      have hcipher : ((le16 L ++ (c ++ (tg ++ rest))).drop 2).take L = c := by
        rw [hdrop2]; exact List.take_left' hcL
      have hdropL : (le16 L ++ (c ++ (tg ++ rest))).drop (2 + L) = tg ++ rest := by
        rw [show 2 + L = ((le16 L) ++ c).length by simp [le16, hcL]; omega]
        rw [← List.append_assoc]
        exact List.drop_left _ _
      have htag2 : ((le16 L ++ (c ++ (tg ++ rest))).drop (2 + L)).take AUTHTAG_LENGTH
          = tg := by
        rw [hdropL]; exact List.take_left' htgL
      rw [hcipher, htag2]
      rw [show openFn c key tg (le16 L) (counterNonce counter) = some chunk from hinv ..]
      have hdropAll : (le16 L ++ (c ++ (tg ++ rest))).drop (2 + L + AUTHTAG_LENGTH)
          = rest := by
        rw [show 2 + L + AUTHTAG_LENGTH = ((le16 L) ++ c ++ tg).length by
          simp [le16, hcL, htgL]; omega]
        rw [show le16 L ++ (c ++ (tg ++ rest)) = (le16 L ++ c ++ tg) ++ rest by
          simp [List.append_assoc]]
        exact List.drop_left _ _
      rw [hdropAll]
      rw [hrest, ih (pt.drop ENCRYPTED_LEN_MAX) (counter + 1) f (by omega) (by
        simp only [List.length_drop]
        unfold ENCRYPTED_LEN_MAX at h ⊢
        omega)]
      show Except.ok (chunk ++ pt.drop ENCRYPTED_LEN_MAX, counter + 1 + n) =
        Except.ok (pt, counter + (n + 1))
      rw [hchunk, List.take_append_drop,
          show counter + 1 + n = counter + (n + 1) by omega]

theorem encryptLoop_length (sealFn : SealFn) (key : List Nat)
    (hlen : ∀ p k ad nn, (sealFn p k ad nn).1.length = p.length)
    (htag : ∀ p k ad nn, (sealFn p k ad nn).2.length = AUTHTAG_LENGTH) :
    ∀ n pt counter, pt.length ≤ n * ENCRYPTED_LEN_MAX →
      (encryptLoop sealFn key n pt counter).1.length =
        n * (2 + AUTHTAG_LENGTH) + pt.length := by
  intro n
  induction n with
  | zero =>
    intro pt counter h
    have hz : pt.length = 0 := by simpa using h
    simp [encryptLoop, hz]
  | succ n ih =>
    intro pt counter h
    simp only [encryptLoop]
    by_cases hn : n = 0
    · subst hn
      rw [if_pos rfl]
      simp [mkBlock, encryptLoop, le16, hlen, htag, AUTHTAG_LENGTH]
      omega
    · rw [if_neg hn]
      simp only [List.length_append]
      rw [mkBlock_length sealFn hlen htag,
          ih (pt.drop ENCRYPTED_LEN_MAX) (counter + 1) (by
            simp only [List.length_drop]
            unfold ENCRYPTED_LEN_MAX at h ⊢
            omega)]
      simp only [List.length_take, List.length_drop]
      unfold ENCRYPTED_LEN_MAX at h ⊢
      unfold AUTHTAG_LENGTH
      omega

/-- Claim C6: block-framing round trip.  For every plaintext of length at
least 1, and any seal/open capability pair that is inverse, length
preserving, and 16-byte tagged, `pair_encrypt` succeeds and its output is
exactly the concatenation of `nblocksOf` (the ceiling of length / 1024)
wire blocks, each of the form [2-byte length prefix][ciphertext][16-byte
tag] sealed under consecutive counter values (`encBlocks`); the output
length is the block count times 18 plus the plaintext length (so a
4096-byte plaintext makes exactly 4 blocks of 1024); and `pair_decrypt` on
the resulting context — whose decryption key equals the encryption key and
whose decryption counter equals the encryption counter's starting value —
returns exactly the original plaintext. -/
theorem block_framing_roundtrip (sealFn : SealFn) (openFn : OpenFn)
    (hinv : ∀ p k ad nn, openFn (sealFn p k ad nn).1 k (sealFn p k ad nn).2 ad nn = some p)
    (hlen : ∀ p k ad nn, (sealFn p k ad nn).1.length = p.length)
    (htag : ∀ p k ad nn, (sealFn p k ad nn).2.length = AUTHTAG_LENGTH)
    (cctx : PairCipherContext)
    (hkey : cctx.decryption_key = cctx.encryption_key)
    (hctr : cctx.decryption_counter = cctx.encryption_counter)
    (pt : List Nat) (hpt : 1 ≤ pt.length) :
    ∃ ct cctxE,
      pair_encrypt sealFn cctx pt = .ok (ct, cctxE) ∧
      ct = (encBlocks sealFn cctx.encryption_key (nblocksOf pt.length) pt
              cctx.encryption_counter).flatten ∧
      (encBlocks sealFn cctx.encryption_key (nblocksOf pt.length) pt
        cctx.encryption_counter).length = nblocksOf pt.length ∧
      ct.length = nblocksOf pt.length * (2 + AUTHTAG_LENGTH) + pt.length ∧
      pair_decrypt openFn cctxE ct =
        .ok (pt, { cctxE with
                   decryption_counter :=
                     cctx.decryption_counter + nblocksOf pt.length }) ∧
      nblocksOf 4096 = 4 ∧ nblocksOf 1024 = 1 ∧ nblocksOf 1025 = 2 := by
  have hbound : pt.length ≤ nblocksOf pt.length * ENCRYPTED_LEN_MAX := by
    unfold nblocksOf ENCRYPTED_LEN_MAX
    omega
  have henc : pair_encrypt sealFn cctx pt =
      .ok ((encryptLoop sealFn cctx.encryption_key (nblocksOf pt.length) pt
              cctx.encryption_counter).1,
           { cctx with encryption_counter :=
               (encryptLoop sealFn cctx.encryption_key (nblocksOf pt.length) pt
                 cctx.encryption_counter).2 }) := by
    unfold pair_encrypt
    rw [if_neg (by omega)]
  have hct : (encryptLoop sealFn cctx.encryption_key (nblocksOf pt.length) pt
      cctx.encryption_counter).1 =
      (encBlocks sealFn cctx.encryption_key (nblocksOf pt.length) pt
        cctx.encryption_counter).flatten :=
    encryptLoop_eq_flatten _ _ _ _ _ hbound
  have hctlen : (encryptLoop sealFn cctx.encryption_key (nblocksOf pt.length) pt
      cctx.encryption_counter).1.length =
      nblocksOf pt.length * (2 + AUTHTAG_LENGTH) + pt.length :=
    encryptLoop_length _ _ hlen htag _ _ _ hbound
  refine ⟨_, _, henc, hct, encBlocks_length _ _ _ _ _, hctlen, ?_, rfl, rfl, rfl⟩
  have hloop : decryptLoop openFn cctx.decryption_key
      (encryptLoop sealFn cctx.encryption_key (nblocksOf pt.length) pt
        cctx.encryption_counter).1.length
      (encryptLoop sealFn cctx.encryption_key (nblocksOf pt.length) pt
        cctx.encryption_counter).1
      cctx.decryption_counter =
      .ok (pt, cctx.decryption_counter + nblocksOf pt.length) := by
    rw [hct, hkey, hctr]
    have hfuel : nblocksOf pt.length ≤
        (encBlocks sealFn cctx.encryption_key (nblocksOf pt.length) pt
          cctx.encryption_counter).flatten.length := by
      rw [← hct, hctlen]
      unfold AUTHTAG_LENGTH
      omega
    exact decryptLoop_encBlocks sealFn openFn _ hinv hlen htag _ _ _ _ hfuel hbound
  unfold pair_decrypt
  rw [if_neg (by
    rw [hctlen]
    unfold AUTHTAG_LENGTH nblocksOf ENCRYPTED_LEN_MAX
    omega)]
  simp only [hloop]

/-- Claim C6 witness: the round trip at a concrete 1025-byte plaintext with
the concrete identity seal/open pair, splitting into 2 blocks. -/
theorem block_framing_roundtrip_w :
    ∃ ct cctxE,
      pair_encrypt idSeal cctx0 (List.replicate 1025 7) = .ok (ct, cctxE) ∧
      ct = (encBlocks idSeal cctx0.encryption_key
              (nblocksOf (List.replicate 1025 7).length) (List.replicate 1025 7)
              cctx0.encryption_counter).flatten ∧
      (encBlocks idSeal cctx0.encryption_key
        (nblocksOf (List.replicate 1025 7).length) (List.replicate 1025 7)
        cctx0.encryption_counter).length =
          nblocksOf (List.replicate 1025 7).length ∧
      ct.length = nblocksOf (List.replicate 1025 7).length * (2 + AUTHTAG_LENGTH) +
        (List.replicate 1025 7).length ∧
      pair_decrypt idOpen cctxE ct =
        .ok (List.replicate 1025 7,
             { cctxE with
               decryption_counter :=
                 cctx0.decryption_counter +
                   nblocksOf (List.replicate 1025 7).length }) ∧
      nblocksOf 4096 = 4 ∧ nblocksOf 1024 = 1 ∧ nblocksOf 1025 = 2 :=
  block_framing_roundtrip idSeal idOpen
    (fun p k ad nn => by simp [idSeal, idOpen])
    (fun _ _ _ _ => rfl) (fun _ _ _ _ => rfl)
    cctx0 rfl rfl (List.replicate 1025 7) (by rw [List.length_replicate]; omega)

theorem hexPairVal_hexByte : ∀ b < 256,
    hexPairVal (hexDigit (b / 16 % 16)) (hexDigit (b % 16)) = b := by decide

theorem hexEncode_length : ∀ l : List Nat, (l.flatMap hexByte).length = 2 * l.length := by
  intro l
  induction l with
  | nil => rfl
  | cons b rest ih => simp [hexByte, ih]; omega

theorem hexDecode_hexEncode : ∀ l : List Nat, (∀ b ∈ l, b < 256) →
    hexDecodeBytes (l.flatMap hexByte) = l := by
  intro l
  induction l with
  | nil => intro _; rfl
  | cons b rest ih =>
    intro h
    show hexDecodeBytes (hexDigit (b / 16 % 16) :: hexDigit (b % 16) ::
      rest.flatMap hexByte) = b :: rest
    simp only [hexDecodeBytes]
    rw [hexPairVal_hexByte b (h b (List.mem_cons_self _ _)),
        ih (fun q hq => h q (List.mem_cons_of_mem _ hq))]

/-- Claim C7: the authorization credential returned by `pair_setup_result`
is the hex encoding of the 32-byte long-term public key followed by the
64-byte private key, and `pair_verify_new` accepts it and decodes back
exactly the same public and private key bytes. -/
theorem credential_roundtrip :
    ∀ sctx : PairSetupContext,
      sctx.public_key.length = 32 → sctx.private_key.length = 64 →
      (∀ b ∈ sctx.public_key, b < 256) → (∀ b ∈ sctx.private_key, b < 256) →
      ∃ vctx, pair_verify_new (some (pair_setup_result sctx)) none = some vctx ∧
        vctx.client_public_key = sctx.public_key ∧
        vctx.client_private_key = sctx.private_key := by
  intro sctx h32 h64 hb32 hb64
  have htl : (pair_setup_result sctx).toList =
      sctx.public_key.flatMap hexByte ++ sctx.private_key.flatMap hexByte := by
    show (sctx.public_key ++ sctx.private_key).flatMap hexByte = _
    rw [List.flatMap_append]
  have hpub_len : (sctx.public_key.flatMap hexByte).length = 64 := by
    rw [hexEncode_length, h32]
  have hpriv_len : (sctx.private_key.flatMap hexByte).length = 128 := by
    rw [hexEncode_length, h64]
  have hlen : (pair_setup_result sctx).length = 192 := by
    show (pair_setup_result sctx).toList.length = 192
    rw [htl, List.length_append, hpub_len, hpriv_len]
  have hdec1 : hexDecodeBytes ((pair_setup_result sctx).toList.take 64) =
      sctx.public_key := by
    rw [htl, List.take_left' hpub_len, hexDecode_hexEncode _ hb32]
  have hdec2 : hexDecodeBytes (((pair_setup_result sctx).toList.drop 64).take 128) =
      sctx.private_key := by
    rw [htl, List.drop_left' hpub_len, List.take_of_length_le (by rw [hpriv_len]),
        hexDecode_hexEncode _ hb64]
  simp only [pair_verify_new]
  rw [if_neg (by rw [hlen]; decide)]
  exact ⟨_, rfl, hdec1, hdec2⟩

/-- Claim C7 witness: the round trip at a concrete keypair. -/
theorem credential_roundtrip_w :
    ∃ vctx, pair_verify_new (some (pair_setup_result sctxC7)) none = some vctx ∧
      vctx.client_public_key = sctxC7.public_key ∧
      vctx.client_private_key = sctxC7.private_key :=
  credential_roundtrip sctxC7 (by decide) (by decide) (by decide) (by decide)

/-- Claim C8: context construction fails on bad parameters: `pair_setup_new`
rejects a null PIN, a PIN shorter than 4 characters, and a supplied device
id that is not exactly 16 characters; `pair_verify_new` rejects a null
credential, a credential whose length is not the expected
`2 * (32 + 64)` characters, and a supplied device id that is not exactly
16 characters. -/
theorem construction_rejects_bad_params :
    (∀ d, pair_setup_new none d = none) ∧
    (∀ p d, p.length < 4 → pair_setup_new (some p) d = none) ∧
    (∀ p d, d.length ≠ 16 → pair_setup_new (some p) (some d) = none) ∧
    (∀ d, pair_verify_new none d = none) ∧
    (∀ ak d, ak.length ≠ 2 * (32 + 64) → pair_verify_new (some ak) d = none) ∧
    (∀ ak d, d.length ≠ 16 → pair_verify_new (some ak) (some d) = none) := by
  refine ⟨fun _ => rfl, ?_, ?_, fun _ => rfl, ?_, ?_⟩
  · intro p d h
    simp [pair_setup_new, h]
  · intro p d h
    by_cases hp : p.length < 4 <;> simp [pair_setup_new, hp, h]
  · intro ak d h
    simp [pair_verify_new, h]
  · intro ak d h
    by_cases ha : ak.length = 2 * (32 + 64) <;> simp [pair_verify_new, ha, h]

/-- Claim C8 witness: the rejections at concrete bad inputs. -/
theorem construction_rejects_bad_params_w :
    pair_setup_new (some ("123")) none = none ∧
    pair_setup_new (some ("1234")) (some ("tooshort")) = none ∧
    pair_verify_new (some ("abc")) none = none ∧
    pair_verify_new (some akZeros) (some ("tooshort")) = none :=
  ⟨construction_rejects_bad_params.2.1 ("123") none (by decide),
   construction_rejects_bad_params.2.2.1 ("1234") ("tooshort") (by decide),
   construction_rejects_bad_params.2.2.2.2.1 ("abc") none (by decide),
   construction_rejects_bad_params.2.2.2.2.2 akZeros ("tooshort") (by decide)⟩

/-- Claim C9: only the first 4 characters of the PIN are used.  Two PINs of
length at least 4 that agree on their first 4 characters produce equal
Pair-Setup contexts (hence identical behavior of every subsequent
operation), and the stored `pin` field — which is also the SRP password
`pair_setup_request1` hands to `srp_user_new` — is exactly the first 4
bytes of the PIN. -/
theorem pin_only_first_four_chars :
    (∀ p1 p2 d, 4 ≤ p1.length → 4 ≤ p2.length →
      p1.toList.take 4 = p2.toList.take 4 →
      pair_setup_new (some p1) d = pair_setup_new (some p2) d) ∧
    (∀ p d ctx, pair_setup_new (some p) d = some ctx →
      ctx.pin = (strBytes p).take 4 ∧
      ∀ a, (pair_setup_request1_user ctx a).password = (strBytes p).take 4) := by
  constructor
  · intro p1 p2 d h1 h2 htake
    have hpin : (strBytes p1).take 4 = (strBytes p2).take 4 := by
      simp only [strBytes, ← List.map_take]
      exact congrArg _ htake
    cases d with
    | none =>
      simp only [pair_setup_new]
      rw [if_neg (by omega), if_neg (by omega), hpin]
    | some d =>
      simp only [pair_setup_new]
      rw [if_neg (show ¬(p1.length < 4) by omega),
          if_neg (show ¬(p2.length < 4) by omega)]
      by_cases hd : d.length ≠ 16 <;> simp [hd, hpin]
  · intro p d ctx h
    cases d with
    | none =>
      simp only [pair_setup_new] at h
      by_cases hp : p.length < 4
      · rw [if_pos hp] at h; exact absurd h (by simp)
      · rw [if_neg hp] at h
        have h2 := Option.some.inj h
        exact ⟨by rw [← h2], fun a => by
          simp [pair_setup_request1_user, srp_user_new, ← h2]⟩
    | some d =>
      simp only [pair_setup_new] at h
      by_cases hp : p.length < 4
      · rw [if_pos hp] at h; exact absurd h (by simp)
      · rw [if_neg hp] at h
        by_cases hd : d.length ≠ 16
        · rw [if_pos hd] at h; exact absurd h (by simp)
        · rw [if_neg hd] at h
          have h2 := Option.some.inj h
          exact ⟨by rw [← h2], fun a => by
            simp [pair_setup_request1_user, srp_user_new, ← h2]⟩

/-- Claim C9 witness: two concrete PINs sharing their first 4 characters
give equal contexts, and the stored pin is the 4-byte prefix. -/
theorem pin_only_first_four_chars_w :
    pair_setup_new (some ("1234")) none = pair_setup_new (some ("12345678")) none ∧
    ∀ ctx, pair_setup_new (some ("1234")) none = some ctx →
      ctx.pin = (strBytes ("1234")).take 4 :=
  ⟨pin_only_first_four_chars.1 ("1234") ("12345678") none (by decide) (by decide)
    (by decide),
   fun ctx h => (pin_only_first_four_chars.2 ("1234") none ctx h).1⟩

/-- Claim C10: `pair_verify_result` never fails — it returns 0 and exposes
the context's `shared_secret` field for every Pair-Verify context; and a
context fresh from `pair_verify_new`, before any peer response is
processed, holds the all-zero 32-byte secret it was initialised with. -/
theorem pair_verify_result_never_fails :
    (∀ vctx : PairVerifyContext, pair_verify_result vctx = (0, vctx.shared_secret)) ∧
    (∀ ak d vctx, pair_verify_new ak d = some vctx →
      vctx.shared_secret = List.replicate 32 0) := by
  refine ⟨fun _ => rfl, ?_⟩
  intro ak d vctx h
  cases ak with
  | none => simp [pair_verify_new] at h
  | some ak =>
    unfold pair_verify_new at h
    split at h
    · exact absurd h (by simp)
    · cases d with
      | none =>
        simp at h
        rw [← h.2]; rfl
      | some d =>
        simp at h
        obtain ⟨-, -, h2⟩ := h
        rw [← h2]; rfl

/-- Claim C10 witness: the fresh context built from a concrete all-zero
credential exposes the all-zero secret. -/
theorem pair_verify_result_never_fails_w :
    pair_verify_new (some akZeros) (some ("0123456789abcdef")) = some vctxC2 ∧
    vctxC2.shared_secret = List.replicate 32 0 :=
  ⟨by decide, pair_verify_result_never_fails.2 akZeros (some ("0123456789abcdef"))
    vctxC2 (by decide)⟩
